import Mathlib

/-!
Verification of the multi-model prediction pipeline, examination lifecycle and
retraining job of the heart_disease_ensemble_model repository.

The definitions below are a shallow embedding of the Python source:

* `backend/main.py`        — prediction endpoints (single-best, compare, explain,
                             examination endpoints);
* `backend/database.py`    — CSV-backed examination store;
* `backend/model_loader.py`— model registry and the mock TabNet model;
* `backend/retrain_models.py` — offline retraining job.

Probabilities and confidences are embedded as rationals (`ℚ`); Python floats in
this code are only compared and folded with arithmetic that is exact on the
values we reason about.  Python exceptions caught by the endpoints' outer
`try/except` (re-raised as HTTP 500) are embedded as `Except.error`.
-/

deriving instance DecidableEq for Except

namespace HeartDisease

/-! ### Prediction selector core (main.py lines 60-164 and 180-238)

Each candidate model, for one request, either is absent from the registry
(`get_model` returned `None`), raised inside `predict_proba` (caught, logged,
and skipped), or produced one positive-class probability per sample
(`model.predict_proba(X_scaled)[:, 1]`). -/

inductive ModelOutcome where
  | unavailable : ModelOutcome
  | errored (msg : String) : ModelOutcome
  | probs (ps : List ℚ) : ModelOutcome
deriving DecidableEq, Repr

/-- The `model_predictions` dict built by the loop over the candidate list
(main.py lines 92-100 / 202-210): models that are available and do not raise
contribute their probability vector, in candidate order. -/
def runModels (cands : List (String × ModelOutcome)) : List (String × List ℚ) :=
  cands.filterMap (fun c =>
    match c.2 with
    | ModelOutcome.probs ps => some (c.1, ps)
    | _ => none)

/-- Per-sample confidence of a probability (main.py line 143 / 221):
`confidence = prob if prob > 0.5 else 1 - prob`. -/
def conf (p : ℚ) : ℚ := if p > 1/2 then p else 1 - p

/-- Accumulator of the inner selection loop (main.py lines 137-139):
`best_model = None; best_prob = None; best_confidence = 0`. -/
structure BestAcc where
  bestModel : Option String
  bestProb : Option ℚ
  bestConfidence : ℚ
deriving DecidableEq, Repr

/-- The selection loop over `model_predictions.items()` for sample `i`
(main.py lines 141-148): strict `>` against the running best, so the first
model attaining the maximum confidence wins. `m.2.getD i 0` is `probs[i]`;
all callers guarantee `i` is in bounds. -/
def selectGo (i : ℕ) (acc : BestAcc) : List (String × List ℚ) → BestAcc
  | [] => acc
  | m :: rest =>
    let prob := m.2.getD i 0
    let c := conf prob
    if c > acc.bestConfidence then selectGo i ⟨some m.1, some prob, c⟩ rest
    else selectGo i acc rest

/-- Selection of the best model for sample `i`. -/
def selectBest (i : ℕ) (preds : List (String × List ℚ)) : BestAcc :=
  selectGo i ⟨none, none, 0⟩ preds

/-- The response schema fields the selector fills (schemas.py `PredictionResponse`,
restricted to the fields produced at main.py lines 153-158 / 228-232). -/
structure PredictionResponse where
  risk_score : ℚ
  risk_level : String
  model_used : String
  confidence : ℚ
deriving DecidableEq, Repr

/-- Building one sample's response (main.py lines 153-158).  When no model
produced a probability, `best_prob` is `None` and the Python expression
`best_prob > 0.5` raises `TypeError`, caught by the endpoint's outer handler
and surfaced as HTTP 500; we embed that as `Except.error`. -/
def mkResult (preds : List (String × List ℚ)) (i : ℕ) : Except String PredictionResponse :=
  match selectBest i preds with
  | ⟨some m, some p, c⟩ =>
    Except.ok
      { risk_score := p
        risk_level := if p > 1/2 then "High" else "Low"
        model_used := m ++ " (Best of " ++ toString preds.length ++ " models)"
        confidence := c }
  | _ => Except.error "TypeError: NoneType is not comparable with float"

/-- The per-sample loop `for i in range(n_patients)` (main.py lines 135-159);
the first sample whose construction raises aborts the whole request with a 500. -/
def selectResults (preds : List (String × List ℚ)) (n : ℕ) :
    Except String (List PredictionResponse) :=
  (List.range n).mapM (mkResult preds)

/-- `MockTabNet.predict_proba` (model_loader.py lines 6-13) draws one pair of
uniform(0.3, 0.7) samples per row from numpy's unseeded global random state and
normalizes each pair to sum to one; `[:, 1]` keeps the second column.  We embed
the global random state as the stream of pairs it would produce. -/
def mockTabNetProbs (rng : ℕ → ℚ × ℚ) (n : ℕ) : List ℚ :=
  (List.range n).map (fun k => (rng k).2 / ((rng k).1 + (rng k).2))

/-- `predict_lifestyle` (main.py lines 46-164): the fourteen cardio candidates
run first, then the always-loaded mock TabNet is appended to `model_predictions`
with its randomly drawn probabilities, then the best model per sample is selected.
The deterministic candidates are a parameter; TabNet's draws come from `rng`. -/
def predict_lifestyle (dets : List (String × ModelOutcome)) (rng : ℕ → ℚ × ℚ)
    (n : ℕ) : Except String (List PredictionResponse) :=
  selectResults (runModels dets ++ [("TabNet", mockTabNetProbs rng n)]) n

/-- `predict_clinical` (main.py lines 166-238): same selection core over the
four heart candidates, with no TabNet appended. -/
def predict_clinical (cands : List (String × ModelOutcome)) (n : ℕ) :
    Except String (List PredictionResponse) :=
  selectResults (runModels cands) n

example :
    predict_clinical [("Stacking Ensemble", ModelOutcome.probs [7/10])] 1 =
      Except.ok [{ risk_score := 7/10, risk_level := "High",
                   model_used := "Stacking Ensemble (Best of 1 models)",
                   confidence := 7/10 }] := by
  norm_num [predict_clinical, runModels, selectResults, mkResult, selectBest, selectGo, conf,
    List.range, List.range.loop, List.mapM, List.mapM.loop]
  all_goals decide

example :
    predict_clinical [("A", ModelOutcome.probs [3/5]), ("B", ModelOutcome.probs [2/5])] 1 =
      Except.ok [{ risk_score := 3/5, risk_level := "High",
                   model_used := "A (Best of 2 models)", confidence := 3/5 }] := by
  norm_num [predict_clinical, runModels, selectResults, mkResult, selectBest, selectGo, conf,
    List.range, List.range.loop, List.mapM, List.mapM.loop]
  all_goals decide

/-! ### Compare-all mode (main.py lines 241-331 and 334-403)

Each candidate carries the static metadata from the hard-coded candidate lists
(display name, key, accuracy, type) together with its outcome for the single
input sample. -/

structure CompareCand where
  model_key : String
  model_name : String
  accuracy : ℚ
  mtype : String
  outcome : ModelOutcome
deriving DecidableEq, Repr

structure CompareRecord where
  model_name : String
  model_key : String
  risk_score : ℚ
  risk_level : String
  confidence : ℚ
  accuracy : ℚ
  mtype : String
deriving DecidableEq, Repr

/-- One entry of `all_results` (main.py lines 283-291): built only for a model
that is available and whose `predict_proba` did not raise; `prob` is
`predict_proba(X_scaled)[0, 1]`. -/
def mkCompareRecord (c : CompareCand) (p : ℚ) : CompareRecord :=
  { model_name := c.model_name
    model_key := c.model_key
    risk_score := p
    risk_level := if p > 1/2 then "High" else "Low"
    confidence := if p > 1/2 then p else 1 - p
    accuracy := c.accuracy
    mtype := c.mtype }

/-- The `all_results` list (main.py lines 277-293): the loop over the candidate
list, skipping unavailable and erroring models.  A multi-sample outcome is read
at its first entry (`[0, 1]`); an empty probability vector would raise and be
skipped like an error. -/
def runCompare (cands : List CompareCand) : List CompareRecord :=
  cands.filterMap (fun c =>
    match c.outcome with
    | ModelOutcome.probs (p :: _) => some (mkCompareRecord c p)
    | _ => none)

/-- Python's `max(all_results, key=lambda x: x['confidence'])` (main.py line 313):
raises `ValueError` on an empty list (caught by the endpoint and surfaced as
HTTP 500); otherwise keeps the first record, replacing it only on a strictly
larger key. -/
def pyMaxByConf : List CompareRecord → Except String CompareRecord
  | [] => Except.error "ValueError: max() arg is an empty sequence"
  | r :: rest =>
    Except.ok (rest.foldl (fun b x => if x.confidence > b.confidence then x else b) r)

structure BestModelSummary where
  model_name : String
  model_key : String
  risk_score : ℚ
  risk_level : String
  confidence : ℚ
deriving DecidableEq, Repr

structure Consensus where
  high_risk_count : ℕ
  low_risk_count : ℕ
  total_models : ℕ
deriving DecidableEq, Repr

structure CompareResponse where
  all_models : List CompareRecord
  best_model : BestModelSummary
  consensus : Consensus
deriving DecidableEq, Repr

/-- The compare endpoint body (main.py lines 277-329 / 366-401): collect
`all_results`, pick the best by confidence, and count High/Low votes. -/
def predict_compare (cands : List CompareCand) : Except String CompareResponse :=
  let all := runCompare cands
  match pyMaxByConf all with
  | Except.error e => Except.error e
  | Except.ok best =>
    Except.ok
      { all_models := all
        best_model :=
          { model_name := best.model_name
            model_key := best.model_key
            risk_score := best.risk_score
            risk_level := best.risk_level
            confidence := best.confidence }
        consensus :=
          { high_risk_count := (all.filter (fun m => m.risk_level = "High")).length
            low_risk_count := (all.filter (fun m => m.risk_level = "Low")).length
            total_models := all.length } }

/-! ### Feature-importance explanation (main.py lines 405-438, `explain_shap_clinical`)

The only capability probe the code performs is
`hasattr(rf_model, 'feature_importances_')`; there is no `coef_` branch.  A
model exposing importances also reports the sample's positive-class probability
through `predict_proba(X_scaled)[0, 1]`. -/

inductive ExplainModel where
  | withImportances (importances : List ℚ) (prob : ℚ) : ExplainModel
  | withoutImportances : ExplainModel
deriving DecidableEq, Repr

/-- The fixed clinical feature column list (main.py lines 414-415). -/
def clinicalCols : List String :=
  ["Age", "Sex", "ChestPainType", "RestingBP", "Cholesterol", "FastingBS",
   "RestingECG", "MaxHR", "ExerciseAngina", "Oldpeak", "ST_Slope"]

/-- The importance dictionary (main.py lines 424-433): importances scaled by the
predicted probability when `feature_importances_` exists, otherwise the literal
constant `0.1` for every expected column. -/
def explain_shap_clinical (cols : List String) (m : ExplainModel) : List (String × ℚ) :=
  match m with
  | ExplainModel.withImportances imps prob => cols.zip (imps.map (fun w => w * prob))
  | ExplainModel.withoutImportances => cols.map (fun c => (c, 1/10))

/-! ### Examination store (database.py lines 281-391 and main.py lines 848-924)

One row of `lifestyle_examinations.csv` (the clinical table at database.py
lines 394-504 is field-for-field identical for the lifecycle columns, so the
same embedding settles both). -/

structure ExamRecord where
  id : ℕ
  patient_id : String
  exam_date : String
  features : List (String × ℚ)
  model_prediction : ℕ
  model_confidence : ℚ
  doctor_diagnosis : Option ℕ
  diagnosis_date : Option String
  is_used_for_training : Bool
  created_at : String
deriving DecidableEq, Repr

/-- `df['id'].max()` over the stored rows. -/
def maxId (store : List ExamRecord) : ℕ :=
  store.foldl (fun m r => max m r.id) 0

/-- Data of one create request, as assembled by the endpoint before
`db.create_lifestyle_examination` is called. -/
structure ExamInput where
  patient_id : String
  exam_date : String
  features : List (String × ℚ)
  model_prediction : ℕ
  model_confidence : ℚ
deriving DecidableEq, Repr

/-- `create_lifestyle_examination` (database.py lines 304-322): the new id is
`int(df['id'].max()) + 1` on a non-empty table and `1` on an empty one; the
diagnosis fields start null and `is_used_for_training` starts false; the row is
appended. -/
def create_lifestyle_examination (store : List ExamRecord) (inp : ExamInput)
    (today : String) : List ExamRecord × ExamRecord :=
  let new_id := if store.isEmpty then 1 else maxId store + 1
  let newRec : ExamRecord :=
    { id := new_id
      patient_id := inp.patient_id
      exam_date := inp.exam_date
      features := inp.features
      model_prediction := inp.model_prediction
      model_confidence := inp.model_confidence
      doctor_diagnosis := none
      diagnosis_date := none
      is_used_for_training := false
      created_at := today }
  (store ++ [newRec], newRec)

/-- `update_lifestyle_diagnosis` (database.py lines 325-339): no change and
`None` when the id is absent; otherwise every row with that id gets the
diagnosis and today's date, and the first updated row is returned. -/
def update_lifestyle_diagnosis (store : List ExamRecord) (exam_id : ℕ) (diagnosis : ℕ)
    (today : String) : List ExamRecord × Option ExamRecord :=
  if store.all (fun r => r.id ≠ exam_id) then (store, none)
  else
    let store2 := store.map (fun r =>
      if r.id = exam_id then
        { r with doctor_diagnosis := some diagnosis, diagnosis_date := some today }
      else r)
    (store2, store2.find? (fun r => r.id = exam_id))

/-- One iteration of the loop in `mark_lifestyle_as_trained` (database.py
lines 358-362): if any row has this id, set its flag and count one update. -/
def markStep (st : List ExamRecord × ℕ) (exam_id : ℕ) : List ExamRecord × ℕ :=
  if st.1.any (fun r => r.id = exam_id) then
    (st.1.map (fun r =>
       if r.id = exam_id then { r with is_used_for_training := true } else r),
     st.2 + 1)
  else st

/-- `mark_lifestyle_as_trained` (database.py lines 353-367): iterate the given
id list, silently skipping ids that match no row, and return the new table with
the number of loop iterations that found a row. -/
def mark_lifestyle_as_trained (store : List ExamRecord) (exam_ids : List ℕ) :
    List ExamRecord × ℕ :=
  exam_ids.foldl markStep (store, 0)

structure ExamStats where
  total_examinations : ℕ
  pending_diagnosis : ℕ
  ready_for_training : ℕ
  already_trained : ℕ
deriving DecidableEq, Repr

/-- `get_lifestyle_exam_stats` (database.py lines 370-391). -/
def get_lifestyle_exam_stats (store : List ExamRecord) : ExamStats :=
  { total_examinations := store.length
    pending_diagnosis := (store.filter (fun r => r.doctor_diagnosis.isNone)).length
    ready_for_training :=
      (store.filter (fun r => r.doctor_diagnosis.isSome && !r.is_used_for_training)).length
    already_trained := (store.filter (fun r => r.is_used_for_training)).length }

/-- States of the lifestyle examination table reachable from the empty table by
the three mutating operations the API exposes (create, set-diagnosis,
mark-trained with an arbitrary id list, per main.py lines 848-924). -/
inductive ReachableStore : List ExamRecord → Prop where
  | empty : ReachableStore []
  | create {s : List ExamRecord} (inp : ExamInput) (today : String) :
      ReachableStore s → ReachableStore (create_lifestyle_examination s inp today).1
  | diagnose {s : List ExamRecord} (exam_id diagnosis : ℕ) (today : String) :
      ReachableStore s → ReachableStore (update_lifestyle_diagnosis s exam_id diagnosis today).1
  | markTrained {s : List ExamRecord} (exam_ids : List ℕ) :
      ReachableStore s → ReachableStore (mark_lifestyle_as_trained s exam_ids).1

/-! ### Create-examination endpoint (main.py lines 848-892) -/

inductive ApiError where
  | notFound (msg : String)
  | internal (msg : String)
deriving DecidableEq, Repr

/-- Python's builtin `round` ties to even. -/
def roundHalfEven (q : ℚ) : ℤ :=
  if q - (⌊q⌋ : ℚ) < 1/2 then ⌊q⌋
  else if q - (⌊q⌋ : ℚ) > 1/2 then ⌊q⌋ + 1
  else if ⌊q⌋ % 2 = 0 then ⌊q⌋ else ⌊q⌋ + 1

/-- `round(x, 4)` as applied to the stored confidence (main.py line 877). -/
def round4 (q : ℚ) : ℚ := (roundHalfEven (q * 10000) : ℚ) / 10000

/-- `create_lifestyle_exam` (main.py lines 848-892): a missing patient gives a
404 before anything is written; then the primary model `cardio_stacking` is
fetched and run (a missing model or a raising `predict_proba` becomes a 500 via
the outer handler, again with nothing written); on success the thresholded
prediction and rounded confidence are stored through
`db.create_lifestyle_examination`.  `patients` is the set of existing patient
ids, `stacking` the registry's view of the primary model for this request. -/
def create_lifestyle_exam (patients : List String) (store : List ExamRecord)
    (pid exam_date : String) (features : List (String × ℚ))
    (stacking : Option (Except String ℚ)) (today : String) :
    List ExamRecord × Except ApiError ExamRecord :=
  if patients.contains pid = false then
    (store, Except.error (ApiError.notFound ("Patient " ++ pid ++ " not found")))
  else
    match stacking with
    | none =>
      (store, Except.error (ApiError.internal
        "AttributeError: NoneType object has no attribute predict_proba"))
    | some (Except.error e) => (store, Except.error (ApiError.internal e))
    | some (Except.ok prob) =>
      let prediction : ℕ := if prob > 1/2 then 1 else 0
      let confidence := if prob > 1/2 then prob else 1 - prob
      let res := create_lifestyle_examination store
        { patient_id := pid
          exam_date := exam_date
          features := features
          model_prediction := prediction
          model_confidence := round4 confidence } today
      (res.1, Except.ok res.2)

/-! ### Retraining job (retrain_models.py) -/

/-- `retrain_lifestyle_models` / `retrain_clinical_models` (retrain_models.py
lines 72-133 / 135-195): the feature-space's fixed set of model types is fitted
strictly in sequence with no per-model-type try/except, and the artifacts are
dumped only after every fit succeeded; the first exception propagates out of
the function, so a failed fit persists nothing at all.  Each entry pairs the
artifact file name with the outcome of that model type's `fit`; the result is
the list of artifacts actually persisted. -/
def retrain_feature_space {α : Type} (fits : List (String × Except String α)) :
    Except String (List (String × α)) :=
  fits.mapM (fun f => (f.2).map (fun a => (f.1, a)))

/-- The per-feature-space loop of `main` (retrain_models.py lines 211-250):
each feature-space's whole retrain call is wrapped in its own try/except, so a
failure is logged and the loop continues with the next feature-space (`none`
records that the failed space persisted nothing). -/
def retrain_main {α : Type} (jobs : List (String × List (String × Except String α))) :
    List (String × Option (List (String × α))) :=
  jobs.map (fun j => (j.1, (retrain_feature_space j.2).toOption))

/-! ### Model registry after `load_models` (model_loader.py lines 45-129)

An artifact is identified by where `load_models` got it: a successfully
unpickled file, the dummy `StandardScaler` fallback, or one of the two mock
objects.  `load : String → Option LoadedArtifact` is the environment's
`joblib.load`: `some` when the file unpickles, `none` when it raises.  Python
aliasing (`self.scalers['heart'] = self.scalers['cardio']`,
`self.models['heart_rf'] = self.models.get('cardio_rf')`) makes two keys hold
the very same object exactly when they map to the same load source; a key
stored with value `None` and an absent key are indistinguishable through
`get_model`/`get_scaler`, which return `dict.get(key)` (model_loader.py
lines 121-129), so both observe as `none`. -/

inductive LoadedArtifact where
  | fromFile (filename : String)
  | dummyScaler
  | mockTabNet
  | mockGCN
deriving DecidableEq, Repr

/-- The cardio model file table of `load_models` (model_loader.py lines 67-82). -/
def cardioModelFiles : List (String × String) :=
  [("cardio_rf", "ensemble_randomforest.pkl"),
   ("cardio_gb", "ensemble_xgboost.pkl"),
   ("cardio_lr", "single_logisticregression.pkl"),
   ("cardio_stacking", "ensemble_stacking.pkl"),
   ("cardio_lightgbm", "ensemble_lightgbm.pkl"),
   ("cardio_baggingsvm", "ensemble_baggingsvm.pkl"),
   ("cardio_blending", "ensemble_blending.pkl"),
   ("cardio_hardvoting", "ensemble_hardvoting.pkl"),
   ("cardio_softvoting", "ensemble_softvoting.pkl"),
   ("cardio_nystroemsgd", "ensemble_nystroemsgd.pkl"),
   ("cardio_dt", "single_decisiontree.pkl"),
   ("cardio_knn", "single_knn.pkl"),
   ("cardio_mlp", "single_mlp.pkl"),
   ("cardio_sgd", "single_sgd.pkl")]

/-- `get_scaler` after `load_models` (model_loader.py lines 53-64, 93 and
126-129): the cardio scaler is `scaler.pkl` with a dummy-scaler fallback, and
the heart key is assigned the same object. -/
def scalersAfterLoad (load : String → Option LoadedArtifact) (key : String) :
    Option LoadedArtifact :=
  if key = "cardio" ∨ key = "heart" then
    some ((load "scaler.pkl").getD LoadedArtifact.dummyScaler)
  else none

/-- `get_model` after `load_models` (model_loader.py lines 66-124): cardio keys
load their own files; the three aliased heart keys observe exactly what their
cardio counterparts loaded; `heart_nb` has its own file; the two deep-learning
keys always hold the mocks. -/
def modelsAfterLoad (load : String → Option LoadedArtifact) (key : String) :
    Option LoadedArtifact :=
  match cardioModelFiles.lookup key with
  | some file => load file
  | none =>
    if key = "heart_rf" then load "ensemble_randomforest.pkl"
    else if key = "heart_gb" then load "ensemble_xgboost.pkl"
    else if key = "heart_stacking" then load "ensemble_stacking.pkl"
    else if key = "heart_nb" then load "single_naivebayes.pkl"
    else if key = "tabnet" then some LoadedArtifact.mockTabNet
    else if key = "gcn" then some LoadedArtifact.mockGCN
    else none

/-! ### Lemmas about the selection core -/

theorem conf_ge_half (p : ℚ) : 1/2 ≤ conf p := by
  rw [conf]; split <;> linarith

theorem conf_le_one {p : ℚ} (h0 : 0 ≤ p) (h1 : p ≤ 1) : conf p ≤ 1 := by
  rw [conf]; split <;> linarith

theorem getD_mem {α : Type} {xs : List α} {i : ℕ} (d : α) (h : i < xs.length) :
    xs.getD i d ∈ xs := by
  rw [List.getD_eq_getElem xs d h]
  exact List.getElem_mem h

/-- Characterization of the selection loop: starting from accumulator `acc`, it
either keeps `acc` (when no candidate beats its confidence) or returns the
first candidate attaining the maximum confidence, provided that maximum
strictly beats `acc`. -/
theorem selectGo_spec (i : ℕ) (l : List (String × List ℚ)) :
    ∀ acc : BestAcc,
      (selectGo i acc l = acc ∧ ∀ m ∈ l, conf (m.2.getD i 0) ≤ acc.bestConfidence) ∨
      (∃ j, ∃ hj : j < l.length,
        selectGo i acc l =
          ⟨some (l[j].1), some (l[j].2.getD i 0), conf (l[j].2.getD i 0)⟩ ∧
        acc.bestConfidence < conf (l[j].2.getD i 0) ∧
        (∀ k, ∀ _hk : k < l.length, conf (l[k].2.getD i 0) ≤ conf (l[j].2.getD i 0)) ∧
        (∀ k, ∀ _hk : k < l.length, k < j →
          conf (l[k].2.getD i 0) < conf (l[j].2.getD i 0))) := by
  induction l with
  | nil =>
    intro acc
    left
    exact ⟨rfl, by simp⟩
  | cons m rest ih =>
    intro acc
    by_cases hc : conf (m.2.getD i 0) > acc.bestConfidence
    · have hgo : selectGo i acc (m :: rest) =
          selectGo i ⟨some m.1, some (m.2.getD i 0), conf (m.2.getD i 0)⟩ rest := by
        simp only [selectGo]
        rw [if_pos hc]
      rcases ih ⟨some m.1, some (m.2.getD i 0), conf (m.2.getD i 0)⟩ with
        ⟨heq, hall⟩ | ⟨j, hj, heq, hlt, hmax, hstrict⟩
      · right
        refine ⟨0, by simp, ?_, hc, ?_, ?_⟩
        · rw [hgo, heq]; simp
        · intro k hk
          match k with
          | 0 => simp
          | k' + 1 =>
            have hk' : k' < rest.length := by simpa using hk
            have := hall (rest[k']) (List.getElem_mem hk')
            simpa using this
        · intro k hk hk0
          omega
      · right
        have hj1 : j + 1 < (m :: rest).length := by simpa using hj
        refine ⟨j + 1, hj1, ?_, ?_, ?_, ?_⟩
        · rw [hgo, heq]; simp
        · calc acc.bestConfidence < conf (m.2.getD i 0) := hc
            _ < conf (rest[j].2.getD i 0) := by simpa using hlt
            _ = conf ((m :: rest)[j + 1].2.getD i 0) := by simp
        · intro k hk
          match k with
          | 0 =>
            have h1 : conf (m.2.getD i 0) < conf (rest[j].2.getD i 0) := by simpa using hlt
            simpa using le_of_lt h1
          | k' + 1 =>
            have hk' : k' < rest.length := by simpa using hk
            have := hmax k' hk'
            simpa using this
        · intro k hk hkj
          match k with
          | 0 =>
            have h1 : conf (m.2.getD i 0) < conf (rest[j].2.getD i 0) := by simpa using hlt
            simpa using h1
          | k' + 1 =>
            have hk' : k' < rest.length := by simpa using hk
            have hkj' : k' < j := by omega
            have := hstrict k' hk' hkj'
            simpa using this
    · have hgo : selectGo i acc (m :: rest) = selectGo i acc rest := by
        simp only [selectGo]
        rw [if_neg hc]
      have hcle : conf (m.2.getD i 0) ≤ acc.bestConfidence := le_of_not_lt hc
      rcases ih acc with ⟨heq, hall⟩ | ⟨j, hj, heq, hlt, hmax, hstrict⟩
      · left
        refine ⟨by rw [hgo, heq], ?_⟩
        intro m' hm'
        rcases List.mem_cons.mp hm' with h | h
        · rw [h]; exact hcle
        · exact hall m' h
      · right
        have hj1 : j + 1 < (m :: rest).length := by simpa using hj
        refine ⟨j + 1, hj1, ?_, ?_, ?_, ?_⟩
        · rw [hgo, heq]; simp
        · simpa using lt_of_le_of_lt (le_refl acc.bestConfidence) (by simpa using hlt)
        · intro k hk
          match k with
          | 0 =>
            have : conf (m.2.getD i 0) < conf (rest[j].2.getD i 0) :=
              lt_of_le_of_lt hcle (by simpa using hlt)
            simpa using le_of_lt this
          | k' + 1 =>
            have hk' : k' < rest.length := by simpa using hk
            have := hmax k' hk'
            simpa using this
        · intro k hk hkj
          match k with
          | 0 =>
            have : conf (m.2.getD i 0) < conf (rest[j].2.getD i 0) :=
              lt_of_le_of_lt hcle (by simpa using hlt)
            simpa using this
          | k' + 1 =>
            have hk' : k' < rest.length := by simpa using hk
            have hkj' : k' < j := by omega
            have := hstrict k' hk' hkj'
            simpa using this

/-- Postcondition of single-best selection for one sample: the request
succeeds, and the returned record's winning model is the first one attaining
the maximum confidence, with `risk_score` that model's raw probability in
`[0, 1]`, `confidence = risk_score` folded into `[0.5, 1]`, and
`risk_level = "High"` exactly on `risk_score > 0.5`. -/
def SingleBestOk (preds : List (String × List ℚ)) (i : ℕ) : Prop :=
  ∃ r, mkResult preds i = Except.ok r ∧
    ∃ j, ∃ _hj : j < preds.length,
      r.risk_score = preds[j].2.getD i 0 ∧
      r.model_used = preds[j].1 ++ " (Best of " ++ toString preds.length ++ " models)" ∧
      (∀ k, ∀ _hk : k < preds.length, conf (preds[k].2.getD i 0) ≤ conf r.risk_score) ∧
      (∀ k, ∀ _hk : k < preds.length, k < j → conf (preds[k].2.getD i 0) < conf r.risk_score) ∧
      0 ≤ r.risk_score ∧ r.risk_score ≤ 1 ∧
      r.confidence = conf r.risk_score ∧
      1/2 ≤ r.confidence ∧ r.confidence ≤ 1 ∧
      (r.risk_level = "High" ↔ r.risk_score > 1/2)

/-- Claim C1: Single-best mode postcondition — for every batch of feature
vectors and every non-empty set of candidate models that produced a
probability, each sample's result names the model with the strictly highest
confidence among those that produced a probability, ties going to the first in
candidate iteration order; `risk_score` is the winner's raw probability in
`[0, 1]`; `confidence` is `risk_score` if above one half, else its complement,
hence in `[0.5, 1]`; and `risk_level` is "High" iff `risk_score > 0.5`
(main.py lines 134-161 and 212-235). -/
theorem single_best_postcondition (preds : List (String × List ℚ)) (i : ℕ)
    (hne : preds ≠ [])
    (hrange : ∀ m ∈ preds, ∀ p ∈ m.2, 0 ≤ p ∧ p ≤ 1)
    (hlen : ∀ m ∈ preds, i < m.2.length) :
    SingleBestOk preds i := by
  rcases selectGo_spec i preds ⟨none, none, 0⟩ with ⟨_, hall⟩ | ⟨j, hj, heq, _, hmax, hstrict⟩
  · rcases preds with _ | ⟨m, rest⟩
    · exact absurd rfl hne
    · have h1 := hall m (List.mem_cons_self m rest)
      have h2 := conf_ge_half (m.2.getD i 0)
      simp only [BestAcc.bestConfidence] at h1
      linarith
  · have hjm : preds[j] ∈ preds := List.getElem_mem hj
    have hjl : i < preds[j].2.length := hlen _ hjm
    have hpm : preds[j].2.getD i 0 ∈ preds[j].2 := getD_mem 0 hjl
    have hpr := hrange _ hjm _ hpm
    refine ⟨{ risk_score := preds[j].2.getD i 0
              risk_level := if preds[j].2.getD i 0 > 1/2 then "High" else "Low"
              model_used := preds[j].1 ++ " (Best of " ++ toString preds.length ++ " models)"
              confidence := conf (preds[j].2.getD i 0) }, ?_, j, hj, rfl, rfl, ?_, ?_, ?_⟩
    · rw [mkResult, selectBest, heq]
    · intro k hk
      exact hmax k hk
    · intro k hk hkj
      exact hstrict k hk hkj
    · refine ⟨hpr.1, hpr.2, ?_⟩
      refine ⟨rfl, conf_ge_half _, conf_le_one hpr.1 hpr.2, ?_⟩
      by_cases hp : preds[j].2.getD i 0 > 1/2
      · simp [hp]
      · simp [hp]

/-- Witness for C1 at a concrete two-model tie: both models report probability
3/5, so the first listed wins. -/
theorem single_best_postcondition_witness :
    ((([("Stacking Ensemble", [(3:ℚ)/5]), ("Random Forest", [(3:ℚ)/5])] :
        List (String × List ℚ)) ≠ []) ∧
      (∀ m ∈ ([("Stacking Ensemble", [(3:ℚ)/5]), ("Random Forest", [(3:ℚ)/5])] :
          List (String × List ℚ)), ∀ p ∈ m.2, 0 ≤ p ∧ p ≤ 1) ∧
      (∀ m ∈ ([("Stacking Ensemble", [(3:ℚ)/5]), ("Random Forest", [(3:ℚ)/5])] :
          List (String × List ℚ)), 0 < m.2.length)) ∧
    SingleBestOk [("Stacking Ensemble", [(3:ℚ)/5]), ("Random Forest", [(3:ℚ)/5])] 0 := by
  refine ⟨⟨?_, ?_, ?_⟩, ?_⟩
  · simp
  · intro m hm p hp
    fin_cases hm <;> simp_all <;> norm_num
  · intro m hm
    fin_cases hm <;> simp
  · refine single_best_postcondition _ 0 (by simp) ?_ ?_
    · intro m hm p hp
      fin_cases hm <;> simp_all <;> norm_num
    · intro m hm
      fin_cases hm <;> simp

/-! ### Error handling when no model produces a probability (Claim C3) -/

theorem runModels_eq_nil {cands : List (String × ModelOutcome)}
    (h : ∀ c ∈ cands, c.2 = ModelOutcome.unavailable ∨ ∃ e, c.2 = ModelOutcome.errored e) :
    runModels cands = [] := by
  induction cands with
  | nil => rfl
  | cons c rest ih =>
    have hrest := ih (fun x hx => h x (List.mem_cons_of_mem c hx))
    rcases h c (List.mem_cons_self c rest) with h1 | ⟨e, h1⟩ <;>
      simp [runModels, List.filterMap_cons, h1] <;>
      simpa [runModels] using hrest

theorem runCompare_eq_nil {cands : List CompareCand}
    (h : ∀ c ∈ cands,
      c.outcome = ModelOutcome.unavailable ∨ ∃ e, c.outcome = ModelOutcome.errored e) :
    runCompare cands = [] := by
  induction cands with
  | nil => rfl
  | cons c rest ih =>
    have hrest := ih (fun x hx => h x (List.mem_cons_of_mem c hx))
    rcases h c (List.mem_cons_self c rest) with h1 | ⟨e, h1⟩ <;>
      simp [runCompare, List.filterMap_cons, h1] <;>
      simpa [runCompare] using hrest

theorem mapM_error_of_all {α : Type} {f : ℕ → Except String α} {l : List ℕ} {e : String}
    (hl : l ≠ []) (h : ∀ x ∈ l, f x = Except.error e) : l.mapM f = Except.error e := by
  rcases l with _ | ⟨x, rest⟩
  · exact absurd rfl hl
  · rw [List.mapM_cons, h x (List.mem_cons_self x rest)]
    rfl

theorem mkResult_nil (i : ℕ) :
    mkResult [] i = Except.error "TypeError: NoneType is not comparable with float" := rfl

/-- Claim C3: for every prediction request, if zero candidate models are
available from the registry or every available model errors during inference,
the operation fails with a 500-equivalent error rather than returning a result
— for single-best mode (the per-sample `best_prob > 0.5` on `None` raises,
main.py lines 212-235; in the lifestyle endpoint the always-available mock
TabNet makes the antecedent unsatisfiable, so the clinical pipeline is the one
embedded) and for compare mode (`max` on the empty `all_results` raises,
main.py lines 312-331). -/
theorem model_unavailable_failure (cands : List (String × ModelOutcome)) (n : ℕ)
    (hn : 1 ≤ n)
    (h : ∀ c ∈ cands, c.2 = ModelOutcome.unavailable ∨ ∃ e, c.2 = ModelOutcome.errored e)
    (cands2 : List CompareCand)
    (h2 : ∀ c ∈ cands2,
      c.outcome = ModelOutcome.unavailable ∨ ∃ e, c.outcome = ModelOutcome.errored e) :
    (∃ e, predict_clinical cands n = Except.error e) ∧
    (∃ e, predict_compare cands2 = Except.error e) := by
  constructor
  · refine ⟨"TypeError: NoneType is not comparable with float", ?_⟩
    rw [predict_clinical, runModels_eq_nil h, selectResults]
    refine mapM_error_of_all ?_ ?_
    · intro hcontr
      have : n = 0 := by simpa [List.range_eq_nil] using hcontr
      omega
    · intro x _
      exact mkResult_nil x
  · refine ⟨"ValueError: max() arg is an empty sequence", ?_⟩
    rw [predict_compare, runCompare_eq_nil h2]
    rfl

/-- Witness for C3: one unavailable and one erroring single-best candidate, and
one unavailable compare candidate. -/
theorem model_unavailable_failure_witness :
    (1 ≤ 1 ∧
      (∀ c ∈ ([("Stacking Ensemble", ModelOutcome.unavailable),
               ("Random Forest", ModelOutcome.errored "boom")] :
          List (String × ModelOutcome)),
        c.2 = ModelOutcome.unavailable ∨ ∃ e, c.2 = ModelOutcome.errored e) ∧
      (∀ c ∈ [CompareCand.mk "heart_rf" "Random Forest" (895/10) "traditional"
                ModelOutcome.unavailable],
        c.outcome = ModelOutcome.unavailable ∨ ∃ e, c.outcome = ModelOutcome.errored e)) ∧
    ((∃ e, predict_clinical [("Stacking Ensemble", ModelOutcome.unavailable),
               ("Random Forest", ModelOutcome.errored "boom")] 1 = Except.error e) ∧
     (∃ e, predict_compare [CompareCand.mk "heart_rf" "Random Forest" (895/10) "traditional"
               ModelOutcome.unavailable] = Except.error e)) := by
  have h1 : ∀ c ∈ ([("Stacking Ensemble", ModelOutcome.unavailable),
      ("Random Forest", ModelOutcome.errored "boom")] : List (String × ModelOutcome)),
      c.2 = ModelOutcome.unavailable ∨ ∃ e, c.2 = ModelOutcome.errored e := by
    intro c hc
    fin_cases hc
    · left; rfl
    · right; exact ⟨"boom", rfl⟩
  have h2 : ∀ c ∈ [CompareCand.mk "heart_rf" "Random Forest" (895/10) "traditional"
      ModelOutcome.unavailable],
      c.outcome = ModelOutcome.unavailable ∨ ∃ e, c.outcome = ModelOutcome.errored e := by
    intro c hc
    fin_cases hc
    left; rfl
  exact ⟨⟨le_refl 1, h1, h2⟩, model_unavailable_failure _ 1 (le_refl 1) h1 _ h2⟩

/-! ### Compare-all mode postcondition (Claim C4) -/

theorem pyMax_foldl_spec (rest : List CompareRecord) :
    ∀ b : CompareRecord,
      (rest.foldl (fun b x => if x.confidence > b.confidence then x else b) b ∈ b :: rest) ∧
      b.confidence ≤
        (rest.foldl (fun b x => if x.confidence > b.confidence then x else b) b).confidence ∧
      (∀ x ∈ rest, x.confidence ≤
        (rest.foldl (fun b x => if x.confidence > b.confidence then x else b) b).confidence) := by
  induction rest with
  | nil =>
    intro b
    exact ⟨by simp, le_refl _, by simp⟩
  | cons r rest ih =>
    intro b
    by_cases hc : r.confidence > b.confidence
    · have hfold : (r :: rest).foldl (fun b x => if x.confidence > b.confidence then x else b) b =
          rest.foldl (fun b x => if x.confidence > b.confidence then x else b) r := by
        simp [List.foldl_cons, hc]
      obtain ⟨hm, hle, hall⟩ := ih r
      rw [hfold]
      refine ⟨?_, le_trans (le_of_lt hc) hle, ?_⟩
      · rcases List.mem_cons.mp hm with h | h
        · rw [h]; simp
        · simp [List.mem_cons_of_mem, h]
      · intro x hx
        rcases List.mem_cons.mp hx with h | h
        · rw [h]; exact hle
        · exact hall x h
    · have hfold : (r :: rest).foldl (fun b x => if x.confidence > b.confidence then x else b) b =
          rest.foldl (fun b x => if x.confidence > b.confidence then x else b) b := by
        simp [List.foldl_cons, hc]
      obtain ⟨hm, hle, hall⟩ := ih b
      rw [hfold]
      refine ⟨?_, hle, ?_⟩
      · rcases List.mem_cons.mp hm with h | h
        · rw [h]; simp
        · simp [List.mem_cons_of_mem, h]
      · intro x hx
        rcases List.mem_cons.mp hx with h | h
        · rw [h]; exact le_trans (le_of_not_lt hc) hle
        · exact hall x h

theorem mkCompareRecord_fields (c : CompareCand) (p : ℚ) :
    (mkCompareRecord c p).risk_score = p ∧
    (mkCompareRecord c p).confidence = conf p ∧
    ((mkCompareRecord c p).risk_level = "High" ↔ p > 1/2) ∧
    ((mkCompareRecord c p).risk_level = "Low" ↔ ¬ p > 1/2) ∧
    (mkCompareRecord c p).accuracy = c.accuracy ∧
    (mkCompareRecord c p).mtype = c.mtype := by
  by_cases hp : p > 1/2 <;> simp [mkCompareRecord, conf, hp]

/-- Postcondition of compare-all mode on a single sample: the request succeeds;
the returned records are exactly one per successfully-run model, carrying that
model's probability, level, folded confidence and static metadata; the best
model attains the maximum confidence; and the consensus counts split the
records at probability one half and sum to the total. -/
def CompareOk (cands : List CompareCand) : Prop :=
  ∃ resp, predict_compare cands = Except.ok resp ∧
    resp.all_models = runCompare cands ∧
    (∀ r ∈ resp.all_models,
      ∃ c ∈ cands, ∃ p, ∃ ps, c.outcome = ModelOutcome.probs (p :: ps) ∧
        r = mkCompareRecord c p) ∧
    (∀ r ∈ resp.all_models,
      r.confidence = conf r.risk_score ∧
      (r.risk_level = "High" ↔ r.risk_score > 1/2) ∧
      (r.risk_level = "Low" ↔ ¬ r.risk_score > 1/2)) ∧
    (∃ b ∈ resp.all_models,
      resp.best_model =
        BestModelSummary.mk b.model_name b.model_key b.risk_score b.risk_level b.confidence ∧
      ∀ r ∈ resp.all_models, r.confidence ≤ b.confidence) ∧
    resp.consensus.high_risk_count =
      (resp.all_models.filter (fun r => decide (r.risk_score > 1/2))).length ∧
    resp.consensus.low_risk_count =
      (resp.all_models.filter (fun r => decide (¬ r.risk_score > 1/2))).length ∧
    resp.consensus.high_risk_count + resp.consensus.low_risk_count =
      resp.consensus.total_models ∧
    resp.consensus.total_models = resp.all_models.length

/-- Claim C4: Compare-all mode postcondition — for every single sample and
every non-empty set of successfully-run models, the response has one record per
successful model with that model's risk_score, risk_level ("High" iff its
probability exceeds one half), folded confidence, static accuracy and type;
best_model attains the maximum confidence; and the consensus High/Low counts
are the numbers of returned models with probability above / not above one half,
summing to total_models (main.py lines 277-329 and 366-401). -/
theorem compare_all_postcondition (cands : List CompareCand)
    (h : runCompare cands ≠ []) : CompareOk cands := by
  have horigin : ∀ r ∈ runCompare cands,
      ∃ c ∈ cands, ∃ p, ∃ ps, c.outcome = ModelOutcome.probs (p :: ps) ∧
        r = mkCompareRecord c p := by
    intro r hr
    rw [runCompare, List.mem_filterMap] at hr
    obtain ⟨c, hc, hfc⟩ := hr
    rcases hout : c.outcome with _ | e | ps
    · rw [hout] at hfc; exact absurd hfc (by simp)
    · rw [hout] at hfc; exact absurd hfc (by simp)
    · rcases ps with _ | ⟨p, ps'⟩
      · rw [hout] at hfc; exact absurd hfc (by simp)
      · rw [hout] at hfc
        simp only [Option.some.injEq] at hfc
        exact ⟨c, hc, p, ps', hout, hfc.symm⟩
  have hfields : ∀ r ∈ runCompare cands,
      r.confidence = conf r.risk_score ∧
      (r.risk_level = "High" ↔ r.risk_score > 1/2) ∧
      (r.risk_level = "Low" ↔ ¬ r.risk_score > 1/2) := by
    intro r hr
    obtain ⟨c, _, p, ps', _, hrc⟩ := horigin r hr
    obtain ⟨hscore, hconf, hhigh, hlow, _, _⟩ := mkCompareRecord_fields c p
    rw [hrc]
    refine ⟨by rw [hconf, hscore], ?_, ?_⟩
    · rw [hscore]; exact hhigh
    · rw [hscore]; exact hlow
  have hHL : ∀ r ∈ runCompare cands, r.risk_level = "High" ∨ r.risk_level = "Low" := by
    intro r hr
    by_cases hp : r.risk_score > 1/2
    · exact Or.inl ((hfields r hr).2.1.mpr hp)
    · exact Or.inr ((hfields r hr).2.2.mpr hp)
  have hpartition : ∀ l : List CompareRecord,
      (∀ r ∈ l, r.risk_level = "High" ∨ r.risk_level = "Low") →
      (l.filter (fun r => decide (r.risk_level = "High"))).length +
        (l.filter (fun r => decide (r.risk_level = "Low"))).length = l.length := by
    intro l
    induction l with
    | nil => intro _; rfl
    | cons r rest ih =>
      intro hl
      have hrest := ih (fun x hx => hl x (List.mem_cons_of_mem r hx))
      rcases hl r (List.mem_cons_self r rest) with hcase | hcase <;>
        simp [List.filter_cons, hcase] <;> omega
  rcases hall : runCompare cands with _ | ⟨r0, rest⟩
  · exact absurd hall h
  · obtain ⟨hm, hle, hmax⟩ := pyMax_foldl_spec rest r0
    set best := rest.foldl (fun b x => if x.confidence > b.confidence then x else b) r0 with hbest
    have hpm : pyMaxByConf (runCompare cands) = Except.ok best := by
      rw [hall]; rfl
    have hcongr : (runCompare cands).filter (fun r => decide (r.risk_level = "High")) =
        (runCompare cands).filter (fun r => decide (r.risk_score > 1/2)) := by
      refine List.filter_congr ?_
      intro r hr
      exact decide_eq_decide.mpr (hfields r hr).2.1
    have hcongr2 : (runCompare cands).filter (fun r => decide (r.risk_level = "Low")) =
        (runCompare cands).filter (fun r => decide (¬ r.risk_score > 1/2)) := by
      refine List.filter_congr ?_
      intro r hr
      exact decide_eq_decide.mpr (hfields r hr).2.2
    refine ⟨{ all_models := runCompare cands
              best_model := BestModelSummary.mk best.model_name best.model_key
                best.risk_score best.risk_level best.confidence
              consensus :=
                { high_risk_count :=
                    ((runCompare cands).filter (fun m => decide (m.risk_level = "High"))).length
                  low_risk_count :=
                    ((runCompare cands).filter (fun m => decide (m.risk_level = "Low"))).length
                  total_models := (runCompare cands).length } },
      ?_, rfl, horigin, hfields, ?_, ?_, ?_, ?_, rfl⟩
    · simp only [predict_compare]
      rw [hpm]
    · refine ⟨best, by rw [hall]; exact hm, rfl, ?_⟩
      intro r hr
      rw [hall] at hr
      rcases List.mem_cons.mp hr with hh | hh
      · rw [hh]; exact hle
      · exact hmax r hh
    · exact congrArg List.length hcongr
    · exact congrArg List.length hcongr2
    · exact hpartition (runCompare cands) hHL

/-- Witness for C4 at the spec's scenario: three successful models with
probabilities 9/10, 3/10 and 3/5. -/
theorem compare_all_postcondition_witness :
    (runCompare
        [CompareCand.mk "cardio_stacking" "Stacking Ensemble" (882/10) "ensemble"
           (ModelOutcome.probs [9/10]),
         CompareCand.mk "cardio_rf" "Random Forest" (865/10) "traditional"
           (ModelOutcome.probs [3/10]),
         CompareCand.mk "cardio_gb" "Gradient Boosting (XGBoost)" (873/10) "traditional"
           (ModelOutcome.probs [3/5])] ≠ []) ∧
    CompareOk
        [CompareCand.mk "cardio_stacking" "Stacking Ensemble" (882/10) "ensemble"
           (ModelOutcome.probs [9/10]),
         CompareCand.mk "cardio_rf" "Random Forest" (865/10) "traditional"
           (ModelOutcome.probs [3/10]),
         CompareCand.mk "cardio_gb" "Gradient Boosting (XGBoost)" (873/10) "traditional"
           (ModelOutcome.probs [3/5])] := by
  have hne : runCompare
      [CompareCand.mk "cardio_stacking" "Stacking Ensemble" (882/10) "ensemble"
         (ModelOutcome.probs [9/10]),
       CompareCand.mk "cardio_rf" "Random Forest" (865/10) "traditional"
         (ModelOutcome.probs [3/10]),
       CompareCand.mk "cardio_gb" "Gradient Boosting (XGBoost)" (873/10) "traditional"
         (ModelOutcome.probs [3/5])] ≠ [] := by
    simp [runCompare, List.filterMap_cons]
  exact ⟨hne, compare_all_postcondition _ hne⟩

/-! ### mark_trained semantics (Claim C6) -/

/-- Any id-preserving rewrite of the rows preserves id search. -/
theorem any_id_map (s : List ExamRecord) (f : ExamRecord → ExamRecord)
    (hf : ∀ r, (f r).id = r.id) (i : ℕ) :
    (s.map f).any (fun r => r.id = i) = s.any (fun r => r.id = i) := by
  induction s with
  | nil => rfl
  | cons r rest ih => simp [List.any_cons, ih, hf r]

/-- Flag updates do not change which ids occur in the store. -/
theorem any_id_map_flag (s : List ExamRecord) (js : List ℕ) (i : ℕ) :
    ((s.map (fun r => if js.contains r.id then { r with is_used_for_training := true } else r)).any
        (fun r => r.id = i)) = s.any (fun r => r.id = i) := by
  refine any_id_map s _ ?_ i
  intro r
  split <;> rfl

/-- The store produced by the mark-trained fold: every row whose id is listed
gets its flag set, every other row is untouched. -/
theorem mark_go_store (ids : List ℕ) :
    ∀ (s : List ExamRecord) (c : ℕ),
      (ids.foldl markStep (s, c)).1 =
        s.map (fun r => if ids.contains r.id then { r with is_used_for_training := true } else r) := by
  induction ids with
  | nil =>
    intro s c
    simp [List.foldl_nil]
  | cons i rest ih =>
    intro s c
    rw [List.foldl_cons]
    by_cases hc : s.any (fun r => r.id = i)
    · have hstep : markStep (s, c) i =
          (s.map (fun r => if r.id = i then { r with is_used_for_training := true } else r), c + 1) := by
        simp [markStep, hc]
      rw [hstep, ih, List.map_map]
      refine List.map_congr_left ?_
      intro r _
      by_cases hi : r.id = i
      · by_cases hr : i ∈ rest <;>
          simp [Function.comp, hi, hr]
      · by_cases hr : r.id ∈ rest <;>
          simp [Function.comp, hi, hr]
    · have hstep : markStep (s, c) i = (s, c) := by
        simp [markStep, hc]
      rw [hstep, ih]
      refine List.map_congr_left ?_
      intro r hr
      have hne : r.id ≠ i := by
        intro hcontr
        simp only [List.any_eq_true, decide_eq_true_eq] at hc
        exact hc ⟨r, hr, hcontr⟩
      by_cases hrest : r.id ∈ rest <;>
        simp [hrest, hne]

/-- The count produced by the mark-trained fold: one per listed id (with
multiplicity) that matches some row of the starting store. -/
theorem mark_go_count (ids : List ℕ) :
    ∀ (s : List ExamRecord) (c : ℕ),
      (ids.foldl markStep (s, c)).2 =
        c + (ids.filter (fun i => s.any (fun r => r.id = i))).length := by
  induction ids with
  | nil =>
    intro s c
    simp [List.foldl_nil]
  | cons i rest ih =>
    intro s c
    rw [List.foldl_cons]
    by_cases hc : s.any (fun r => r.id = i)
    · have hstep : markStep (s, c) i =
          (s.map (fun r => if r.id = i then { r with is_used_for_training := true } else r), c + 1) := by
        simp [markStep, hc]
      rw [hstep, ih]
      have hany : ∀ j : ℕ,
          ((s.map (fun r => if r.id = i then { r with is_used_for_training := true } else r)).any
              (fun r => r.id = j)) = s.any (fun r => r.id = j) := by
        intro j
        have := any_id_map_flag s [i] j
        simpa [List.contains_cons] using this
      have hfilter :
          (rest.filter (fun j =>
            (s.map (fun r => if r.id = i then { r with is_used_for_training := true } else r)).any
              (fun r => r.id = j))) = rest.filter (fun j => s.any (fun r => r.id = j)) := by
        refine List.filter_congr ?_
        intro j _
        exact hany j
      rw [hfilter]
      simp [List.filter_cons, hc]
      omega
    · have hstep : markStep (s, c) i = (s, c) := by
        simp [markStep, hc]
      rw [hstep, ih]
      simp [List.filter_cons, hc]

/-- Claim C6 counterexample: with one stored examination of id 1, a second
`mark_trained([1])` call returns 1 again (the loop counts every listed id that
matches a row, regardless of the flag's previous value), not the 0 additional
updates the claim promises (database.py lines 353-367). -/
theorem mark_trained_second_call_counterexample :
    (mark_lifestyle_as_trained
        (mark_lifestyle_as_trained
          [ExamRecord.mk 1 "P1" "2026-01-01" [] 1 1 none none false "2026-01-01"] [1]).1 [1]).2 ≠ 0 := by
  simp [mark_lifestyle_as_trained, markStep]

/-- Claim C6 (amended): `mark_trained` sets `is_used_for_training` exactly for
the listed ids that exist in the store (ids not found are silently skipped,
never errors); its return value is the number of listed ids (counted with
multiplicity) that match some row; and a second call with the same ids leaves
the store unchanged and returns the same count again — not 0, since the code
counts every matching id whether or not its flag was already set
(database.py lines 353-367 and 466-480). -/
theorem mark_store_eq (store : List ExamRecord) (ids : List ℕ) :
    (mark_lifestyle_as_trained store ids).1 =
      store.map (fun r =>
        if ids.contains r.id then { r with is_used_for_training := true } else r) := by
  have h := mark_go_store ids store 0
  simpa [mark_lifestyle_as_trained] using h

theorem mark_count_eq (store : List ExamRecord) (ids : List ℕ) :
    (mark_lifestyle_as_trained store ids).2 =
      (ids.filter (fun i => store.any (fun r => r.id = i))).length := by
  have h := mark_go_count ids store 0
  simpa [mark_lifestyle_as_trained] using h

theorem mark_trained_semantics (store : List ExamRecord) (ids : List ℕ) :
    (mark_lifestyle_as_trained store ids).1 =
      store.map (fun r =>
        if ids.contains r.id then { r with is_used_for_training := true } else r) ∧
    (mark_lifestyle_as_trained store ids).2 =
      (ids.filter (fun i => store.any (fun r => r.id = i))).length ∧
    mark_lifestyle_as_trained (mark_lifestyle_as_trained store ids).1 ids =
      ((mark_lifestyle_as_trained store ids).1, (mark_lifestyle_as_trained store ids).2) := by
  refine ⟨mark_store_eq store ids, mark_count_eq store ids, ?_⟩
  have hfst : (mark_lifestyle_as_trained (mark_lifestyle_as_trained store ids).1 ids).1 =
      (mark_lifestyle_as_trained store ids).1 := by
    rw [mark_store_eq, mark_store_eq, List.map_map]
    refine List.map_congr_left ?_
    intro r _
    by_cases hc : r.id ∈ ids <;> simp [Function.comp, hc]
  have hsnd : (mark_lifestyle_as_trained (mark_lifestyle_as_trained store ids).1 ids).2 =
      (mark_lifestyle_as_trained store ids).2 := by
    rw [mark_count_eq, mark_count_eq]
    have hfilter : (ids.filter (fun i =>
        (mark_lifestyle_as_trained store ids).1.any (fun r => r.id = i))) =
        ids.filter (fun i => store.any (fun r => r.id = i)) := by
      refine List.filter_congr ?_
      intro i _
      rw [mark_store_eq]
      exact any_id_map_flag store ids i
    rw [hfilter]
  exact Prod.ext hfst hsnd

/-! ### Examination stats invariant (Claim C2) -/

/-- Claim C2 counterexample: create one examination (id 1, diagnosis null) and
then invoke mark-trained with id 1 — a sequence the API allows, since the
mark-trained endpoint accepts any id list.  The resulting reachable state has
pending = 1, ready = 0, trained = 1, total = 1, so the claimed identity
pending + ready + trained = total fails (database.py lines 353-391). -/
theorem exam_stats_invariant_counterexample :
    ReachableStore
      (mark_lifestyle_as_trained
        (create_lifestyle_examination [] (ExamInput.mk "P1" "2026-01-01" [] 1 1) "2026-01-01").1
        [1]).1 ∧
    ¬ ((get_lifestyle_exam_stats
          (mark_lifestyle_as_trained
            (create_lifestyle_examination [] (ExamInput.mk "P1" "2026-01-01" [] 1 1) "2026-01-01").1
            [1]).1).pending_diagnosis +
        (get_lifestyle_exam_stats
          (mark_lifestyle_as_trained
            (create_lifestyle_examination [] (ExamInput.mk "P1" "2026-01-01" [] 1 1) "2026-01-01").1
            [1]).1).ready_for_training +
        (get_lifestyle_exam_stats
          (mark_lifestyle_as_trained
            (create_lifestyle_examination [] (ExamInput.mk "P1" "2026-01-01" [] 1 1) "2026-01-01").1
            [1]).1).already_trained =
        (get_lifestyle_exam_stats
          (mark_lifestyle_as_trained
            (create_lifestyle_examination [] (ExamInput.mk "P1" "2026-01-01" [] 1 1) "2026-01-01").1
            [1]).1).total_examinations) := by
  constructor
  · exact ReachableStore.markTrained [1]
      (ReachableStore.create (ExamInput.mk "P1" "2026-01-01" [] 1 1) "2026-01-01"
        ReachableStore.empty)
  · simp [create_lifestyle_examination, mark_lifestyle_as_trained, markStep, maxId,
      get_lifestyle_exam_stats]

/-- Every trained row has a diagnosis — the discipline the stats identity
needs. -/
def TrainedDiagnosed (s : List ExamRecord) : Prop :=
  ∀ r ∈ s, r.is_used_for_training = true → r.doctor_diagnosis.isSome

theorem stats_sum_of_trainedDiagnosed (s : List ExamRecord) (h : TrainedDiagnosed s) :
    (get_lifestyle_exam_stats s).pending_diagnosis +
      (get_lifestyle_exam_stats s).ready_for_training +
      (get_lifestyle_exam_stats s).already_trained =
      (get_lifestyle_exam_stats s).total_examinations := by
  induction s with
  | nil => rfl
  | cons r rest ih =>
    have hrest := ih (fun x hx hx2 => h x (List.mem_cons_of_mem r hx) hx2)
    have hr := h r (List.mem_cons_self r rest)
    rcases hd : r.doctor_diagnosis with _ | d
    · have ht : r.is_used_for_training = false := by
        cases ht : r.is_used_for_training
        · rfl
        · have := hr ht
          rw [hd] at this
          simp at this
      simp only [get_lifestyle_exam_stats, List.filter_cons, hd, ht] at hrest ⊢
      simp at hrest ⊢
      omega
    · cases ht : r.is_used_for_training <;>
        · simp only [get_lifestyle_exam_stats, List.filter_cons, hd, ht] at hrest ⊢
          simp at hrest ⊢
          omega

/-- Reachability when mark-trained is only ever invoked on ids whose rows are
already diagnosed (the retraining flow's intended use of the endpoint). -/
inductive DisciplinedReachable : List ExamRecord → Prop where
  | empty : DisciplinedReachable []
  | create {s : List ExamRecord} (inp : ExamInput) (today : String) :
      DisciplinedReachable s → DisciplinedReachable (create_lifestyle_examination s inp today).1
  | diagnose {s : List ExamRecord} (exam_id diagnosis : ℕ) (today : String) :
      DisciplinedReachable s →
      DisciplinedReachable (update_lifestyle_diagnosis s exam_id diagnosis today).1
  | markTrained {s : List ExamRecord} (exam_ids : List ℕ)
      (hdiag : ∀ i ∈ exam_ids, ∀ r ∈ s, r.id = i → r.doctor_diagnosis.isSome) :
      DisciplinedReachable s → DisciplinedReachable (mark_lifestyle_as_trained s exam_ids).1

theorem disciplined_trainedDiagnosed {s : List ExamRecord} (h : DisciplinedReachable s) :
    TrainedDiagnosed s := by
  induction h with
  | empty =>
    intro r hr
    cases hr
  | @create s0 inp today _ ih =>
    intro r hr htr
    simp only [create_lifestyle_examination] at hr
    rcases List.mem_append.mp hr with h1 | h1
    · exact ih r h1 htr
    · have hre : r = _ := List.mem_singleton.mp h1
      rw [hre] at htr
      simp at htr
  | @diagnose s0 exam_id diagnosis today _ ih =>
    intro r hr htr
    simp only [update_lifestyle_diagnosis] at hr
    by_cases hall : s0.all (fun x => x.id ≠ exam_id) = true
    · rw [if_pos hall] at hr
      exact ih r hr htr
    · rw [if_neg hall] at hr
      rcases List.mem_map.mp hr with ⟨x, hx, hxr⟩
      by_cases hid : x.id = exam_id
      · rw [← hxr, if_pos hid]
        simp
      · rw [← hxr, if_neg hid] at htr ⊢
        exact ih x hx htr
  | @markTrained s0 exam_ids hdiag _ ih =>
    intro r hr htr
    rw [mark_store_eq] at hr
    rcases List.mem_map.mp hr with ⟨x, hx, hxr⟩
    by_cases hid : exam_ids.contains x.id = true
    · rw [← hxr, if_pos hid]
      have hmem : x.id ∈ exam_ids := by simpa using hid
      exact hdiag x.id hmem x hx rfl
    · rw [← hxr, if_neg hid] at htr ⊢
      exact ih x hx htr

/-- Claim C2 (amended): the stats identity
`pending + ready_for_training + already_trained = total_examinations` holds in
every state reachable from the empty store by create, set-diagnosis, and
mark-trained operations in which mark-trained is only invoked on ids of
already-diagnosed examinations; with arbitrary id lists the identity can break,
because marking an undiagnosed examination makes it count as both pending and
trained (database.py lines 353-391). -/
theorem exam_stats_invariant_amended (s : List ExamRecord) (h : DisciplinedReachable s) :
    (get_lifestyle_exam_stats s).pending_diagnosis +
      (get_lifestyle_exam_stats s).ready_for_training +
      (get_lifestyle_exam_stats s).already_trained =
      (get_lifestyle_exam_stats s).total_examinations :=
  stats_sum_of_trainedDiagnosed s (disciplined_trainedDiagnosed h)

/-- Witness for C2 (amended): create an examination, diagnose it, then
mark-trained its id — a disciplined sequence — and check the stats identity. -/
theorem exam_stats_invariant_amended_witness :
    DisciplinedReachable
      (mark_lifestyle_as_trained
        (update_lifestyle_diagnosis
          (create_lifestyle_examination [] (ExamInput.mk "P1" "2026-01-01" [] 1 1) "2026-01-01").1
          1 1 "2026-01-02").1 [1]).1 ∧
    (get_lifestyle_exam_stats
        (mark_lifestyle_as_trained
          (update_lifestyle_diagnosis
            (create_lifestyle_examination [] (ExamInput.mk "P1" "2026-01-01" [] 1 1) "2026-01-01").1
            1 1 "2026-01-02").1 [1]).1).pending_diagnosis +
      (get_lifestyle_exam_stats
        (mark_lifestyle_as_trained
          (update_lifestyle_diagnosis
            (create_lifestyle_examination [] (ExamInput.mk "P1" "2026-01-01" [] 1 1) "2026-01-01").1
            1 1 "2026-01-02").1 [1]).1).ready_for_training +
      (get_lifestyle_exam_stats
        (mark_lifestyle_as_trained
          (update_lifestyle_diagnosis
            (create_lifestyle_examination [] (ExamInput.mk "P1" "2026-01-01" [] 1 1) "2026-01-01").1
            1 1 "2026-01-02").1 [1]).1).already_trained =
      (get_lifestyle_exam_stats
        (mark_lifestyle_as_trained
          (update_lifestyle_diagnosis
            (create_lifestyle_examination [] (ExamInput.mk "P1" "2026-01-01" [] 1 1) "2026-01-01").1
            1 1 "2026-01-02").1 [1]).1).total_examinations := by
  have hdiag : ∀ i ∈ [1], ∀ r ∈ (update_lifestyle_diagnosis
      (create_lifestyle_examination [] (ExamInput.mk "P1" "2026-01-01" [] 1 1) "2026-01-01").1
      1 1 "2026-01-02").1, r.id = i → r.doctor_diagnosis.isSome := by
    intro i hi r hr hid
    simp [update_lifestyle_diagnosis, create_lifestyle_examination, maxId] at hr
    rw [hr]
    rfl
  have hd : DisciplinedReachable
      (mark_lifestyle_as_trained
        (update_lifestyle_diagnosis
          (create_lifestyle_examination [] (ExamInput.mk "P1" "2026-01-01" [] 1 1) "2026-01-01").1
          1 1 "2026-01-02").1 [1]).1 :=
    DisciplinedReachable.markTrained [1] hdiag
      (DisciplinedReachable.diagnose 1 1 "2026-01-02"
        (DisciplinedReachable.create (ExamInput.mk "P1" "2026-01-01" [] 1 1) "2026-01-01"
          DisciplinedReachable.empty))
  exact ⟨hd, exam_stats_invariant_amended _ hd⟩

/-! ### Create-examination postcondition (Claim C5) -/

/-- Success postcondition of examination creation: one record is appended with
the next id, a 0/1 prediction, the rounded folded confidence of the primary
model's probability `p`, null diagnosis fields, and a false training flag. -/
def CreateExamSuccess (patients : List String) (store : List ExamRecord)
    (pid exam_date : String) (features : List (String × ℚ))
    (stacking : Option (Except String ℚ)) (today : String) (p : ℚ) : Prop :=
  ∃ newRec : ExamRecord,
    create_lifestyle_exam patients store pid exam_date features stacking today =
      (store ++ [newRec], Except.ok newRec) ∧
    newRec.id = (if store.isEmpty then 1 else maxId store + 1) ∧
    (newRec.model_prediction = 0 ∨ newRec.model_prediction = 1) ∧
    newRec.model_confidence = round4 (if p > 1/2 then p else 1 - p) ∧
    newRec.doctor_diagnosis = none ∧
    newRec.diagnosis_date = none ∧
    newRec.is_used_for_training = false ∧
    newRec.patient_id = pid

/-- Claim C5: Create-examination postcondition — a create request for a
missing patient fails NotFound with the store unchanged; otherwise (when the
primary model `cardio_stacking` returns a probability) exactly one record is
appended whose id is max existing id + 1 (1 on an empty store), with
model_prediction in 0/1 and model_confidence from the primary model's
prediction, null diagnosis fields, and is_used_for_training false
(main.py lines 848-892, database.py lines 304-322). -/
theorem create_exam_postcondition (patients : List String) (store : List ExamRecord)
    (pid exam_date today : String) (features : List (String × ℚ))
    (stacking : Option (Except String ℚ)) :
    (patients.contains pid = false →
      create_lifestyle_exam patients store pid exam_date features stacking today =
        (store, Except.error (ApiError.notFound ("Patient " ++ pid ++ " not found")))) ∧
    (∀ p : ℚ, patients.contains pid = true → stacking = some (Except.ok p) →
      CreateExamSuccess patients store pid exam_date features stacking today p) := by
  constructor
  · intro hnp
    unfold create_lifestyle_exam
    rw [if_pos hnp]
  · intro p hp hs
    subst hs
    refine ⟨{ id := if store.isEmpty then 1 else maxId store + 1
              patient_id := pid
              exam_date := exam_date
              features := features
              model_prediction := if p > 1/2 then 1 else 0
              model_confidence := round4 (if p > 1/2 then p else 1 - p)
              doctor_diagnosis := none
              diagnosis_date := none
              is_used_for_training := false
              created_at := today }, ?_, rfl, ?_, rfl, rfl, rfl, rfl, rfl⟩
    · unfold create_lifestyle_exam
      have hne : ¬ (patients.contains pid = false) := by rw [hp]; simp
      rw [if_neg hne]
      rfl
    · by_cases h : p > 1/2
      · right
        exact if_pos h
      · left
        exact if_neg h

/-- Witness for C5: the NotFound branch on an empty patient table, and the
success branch for patient "P1" with probability 7/10 on an empty store. -/
theorem create_exam_postcondition_witness :
    ((([] : List String).contains "P1" = false) ∧
      create_lifestyle_exam [] [] "P1" "2026-01-01" [] (some (Except.ok (7/10))) "2026-01-01" =
        ([], Except.error (ApiError.notFound ("Patient " ++ "P1" ++ " not found")))) ∧
    ((["P1"].contains "P1" = true) ∧
      (some (Except.ok (7/10)) : Option (Except String ℚ)) = some (Except.ok (7/10)) ∧
      CreateExamSuccess ["P1"] [] "P1" "2026-01-01" [] (some (Except.ok (7/10))) "2026-01-01"
        (7/10)) := by
  refine ⟨⟨rfl, ?_⟩, rfl, rfl, ?_⟩
  · exact (create_exam_postcondition [] [] "P1" "2026-01-01" "2026-01-01" []
      (some (Except.ok (7/10)))).1 rfl
  · exact (create_exam_postcondition ["P1"] [] "P1" "2026-01-01" "2026-01-01" []
      (some (Except.ok (7/10)))).2 (7/10) rfl rfl

/-! ### Feature-importance explanation (Claim C7) -/

/-- Claim C7 counterexample: a model without `feature_importances_` gets the
literal uniform weight 0.1 per feature (main.py line 433), which differs from
the claimed `1/num_features = 1/11` for the 11 clinical features. -/
theorem explain_fallback_counterexample :
    (explain_shap_clinical clinicalCols ExplainModel.withoutImportances).lookup "Age" =
      some (1/10) ∧
    (1 : ℚ)/10 ≠ 1/(clinicalCols.length : ℚ) := by
  constructor
  · rfl
  · norm_num [clinicalCols]

/-- Claim C7 (amended): the importance mapping assigns each feature (a) the
model's per-feature importance scaled by the predicted positive-class
probability when the model exposes `feature_importances_`, and otherwise (b)
the literal uniform weight 0.1 — there is no linear-coefficient branch, and the
fallback is 0.1 rather than 1/num_features; all weights are non-negative
whenever the importances and the probability are, and the mapping is a pure
function of the model and features (main.py lines 405-438). -/
theorem explain_policy (cols : List String) (imps : List ℚ) (prob : ℚ)
    (h1 : ∀ w ∈ imps, 0 ≤ w) (h2 : 0 ≤ prob) :
    explain_shap_clinical cols (ExplainModel.withImportances imps prob) =
      cols.zip (imps.map (fun w => w * prob)) ∧
    (∀ pr ∈ explain_shap_clinical cols (ExplainModel.withImportances imps prob), 0 ≤ pr.2) ∧
    explain_shap_clinical cols ExplainModel.withoutImportances =
      cols.map (fun c => (c, 1/10)) ∧
    (∀ pr ∈ explain_shap_clinical cols ExplainModel.withoutImportances, 0 ≤ pr.2) := by
  refine ⟨rfl, ?_, rfl, ?_⟩
  · intro pr hpr
    simp only [explain_shap_clinical] at hpr
    rcases pr with ⟨c, w⟩
    have hw := (List.of_mem_zip hpr).2
    rcases List.mem_map.mp hw with ⟨w0, hw0, hww⟩
    rw [← hww]
    exact mul_nonneg (h1 w0 hw0) h2
  · intro pr hpr
    simp only [explain_shap_clinical] at hpr
    rcases List.mem_map.mp hpr with ⟨c, _, hc⟩
    rw [← hc]
    norm_num

/-- Witness for C7 at concrete non-negative importances and probability. -/
theorem explain_policy_witness :
    ((∀ w ∈ [(1:ℚ)/2, 1/2], 0 ≤ w) ∧ (0 : ℚ) ≤ 3/5) ∧
    (explain_shap_clinical clinicalCols (ExplainModel.withImportances [(1:ℚ)/2, 1/2] (3/5)) =
      clinicalCols.zip (([(1:ℚ)/2, 1/2]).map (fun w => w * (3/5))) ∧
    (∀ pr ∈ explain_shap_clinical clinicalCols
        (ExplainModel.withImportances [(1:ℚ)/2, 1/2] (3/5)), 0 ≤ pr.2) ∧
    explain_shap_clinical clinicalCols ExplainModel.withoutImportances =
      clinicalCols.map (fun c => (c, 1/10)) ∧
    (∀ pr ∈ explain_shap_clinical clinicalCols ExplainModel.withoutImportances, 0 ≤ pr.2)) := by
  have hw : ∀ w ∈ [(1:ℚ)/2, 1/2], 0 ≤ w := by
    intro w hwm
    fin_cases hwm <;> norm_num
  have hp : (0 : ℚ) ≤ 3/5 := by norm_num
  exact ⟨⟨hw, hp⟩, explain_policy clinicalCols [(1:ℚ)/2, 1/2] (3/5) hw hp⟩

/-! ### Determinism of the lifestyle prediction pipeline (Claim C8) -/

/-- Claim C8 counterexample: the lifestyle pipeline always appends the mock
TabNet, whose `predict_proba` draws from numpy's unseeded global random state
(model_loader.py lines 6-13); two runs on the identical feature vector against
the unchanged model set consume different draws and can return different
results.  Here a deterministic Stacking Ensemble reports 3/5, and TabNet draws
(0.3, 0.7) on the first run (probability 7/10) but (0.7, 0.3) on the second
(probability 3/10): both give TabNet confidence 7/10, so TabNet wins both runs
but with different risk_score and risk_level. -/
theorem predict_determinism_counterexample :
    predict_lifestyle [("Stacking Ensemble", ModelOutcome.probs [3/5])]
        (fun _ => ((3:ℚ)/10, 7/10)) 1 ≠
      predict_lifestyle [("Stacking Ensemble", ModelOutcome.probs [3/5])]
        (fun _ => ((7:ℚ)/10, 3/10)) 1 := by
  have h1 : predict_lifestyle [("Stacking Ensemble", ModelOutcome.probs [3/5])]
      (fun _ => ((3:ℚ)/10, 7/10)) 1 =
      Except.ok [{ risk_score := 7/10, risk_level := "High",
                   model_used := "TabNet (Best of 2 models)", confidence := 7/10 }] := by
    norm_num [predict_lifestyle, mockTabNetProbs, runModels, selectResults, mkResult,
      selectBest, selectGo, conf, List.range, List.range.loop, List.mapM, List.mapM.loop,
      List.filterMap]
    all_goals decide
  have h2 : predict_lifestyle [("Stacking Ensemble", ModelOutcome.probs [3/5])]
      (fun _ => ((7:ℚ)/10, 3/10)) 1 =
      Except.ok [{ risk_score := 3/10, risk_level := "Low",
                   model_used := "TabNet (Best of 2 models)", confidence := 7/10 }] := by
    norm_num [predict_lifestyle, mockTabNetProbs, runModels, selectResults, mkResult,
      selectBest, selectGo, conf, List.range, List.range.loop, List.mapM, List.mapM.loop,
      List.filterMap]
    all_goals decide
  rw [h1, h2]
  intro hcontr
  simp only [Except.ok.injEq, List.cons.injEq, PredictionResponse.mk.injEq] at hcontr
  have := hcontr.1.1
  norm_num at this

/-- Claim C8 (amended): re-running the lifestyle single-best pipeline on an
identical feature vector against an unchanged model set yields an identical
result provided the mock TabNet's random draws coincide between the two runs
(as they would if the mock were seeded); the deterministic candidates alone
never introduce a difference.  With the unseeded global numpy state the draws
generally differ, and the result can change (main.py lines 102-161,
model_loader.py lines 6-13). -/
theorem predict_determinism_amended (dets : List (String × ModelOutcome)) (n : ℕ)
    (rng1 rng2 : ℕ → ℚ × ℚ) (h : ∀ k, k < n → rng1 k = rng2 k) :
    predict_lifestyle dets rng1 n = predict_lifestyle dets rng2 n := by
  have hmock : mockTabNetProbs rng1 n = mockTabNetProbs rng2 n := by
    unfold mockTabNetProbs
    refine List.map_congr_left ?_
    intro k hk
    rw [h k (List.mem_range.mp hk)]
  rw [predict_lifestyle, predict_lifestyle, hmock]

/-- Witness for C8 (amended): two draw streams that agree on the single sample
of the batch (they differ from index 1 on, which the batch never reads). -/
theorem predict_determinism_amended_witness :
    (∀ k, k < 1 →
      (fun _ : ℕ => ((1:ℚ)/2, 1/2)) k =
      (fun j : ℕ => if j = 0 then ((1:ℚ)/2, 1/2) else (0, 1)) k) ∧
    predict_lifestyle [("Stacking Ensemble", ModelOutcome.probs [3/5])]
        (fun _ => ((1:ℚ)/2, 1/2)) 1 =
      predict_lifestyle [("Stacking Ensemble", ModelOutcome.probs [3/5])]
        (fun j => if j = 0 then ((1:ℚ)/2, 1/2) else (0, 1)) 1 := by
  constructor
  · intro k hk
    have hk0 : k = 0 := by omega
    subst hk0
    rfl
  · refine predict_determinism_amended _ 1 _ _ ?_
    intro k hk
    have hk0 : k = 0 := by omega
    subst hk0
    rfl

/-! ### Retraining isolation (Claim C9) -/

/-- Claim C9 counterexample: in a lifestyle retrain where the Random Forest fit
succeeds but the Gradient Boosting fit raises, the whole feature-space function
aborts with that exception — the remaining model types (Logistic Regression,
Stacking) are not retrained, and nothing at all is persisted, because all
`joblib.dump` calls sit after the last fit (retrain_models.py lines 88-133). -/
theorem retrain_isolation_counterexample :
    retrain_feature_space
        [("ensemble_randomforest.pkl", Except.ok 1),
         ("ensemble_xgboost.pkl", Except.error "MemoryError"),
         ("single_logisticregression.pkl", Except.ok 2),
         ("ensemble_stacking.pkl", Except.ok 3)] =
      (Except.error "MemoryError" : Except String (List (String × ℕ))) := rfl

/-- Claim C9 (amended): isolation is per feature-space, not per model type — a
model type's fit failure (after any prefix of successful fits) aborts that
feature-space's retrain with the exception, so none of its artifacts are
persisted; but `main` wraps each feature-space in its own try/except, so the
other feature-spaces in the run are retrained independently
(retrain_models.py lines 88-133 and 238-250). -/
theorem retrain_isolation_amended {α : Type}
    (pre post : List (String × List (String × Except String α)))
    (dt : String) (pre2 post2 : List (String × Except String α)) (n e : String)
    (hok : ∀ x ∈ pre2, ∃ a, x.2 = Except.ok a) :
    retrain_feature_space (pre2 ++ (n, Except.error e) :: post2) = Except.error e ∧
    retrain_main (pre ++ (dt, pre2 ++ (n, Except.error e) :: post2) :: post) =
      retrain_main pre ++ (dt, none) :: retrain_main post := by
  have hmain : retrain_feature_space (pre2 ++ (n, Except.error e) :: post2) =
      Except.error e := by
    induction pre2 with
    | nil => rfl
    | cons x rest ih =>
      obtain ⟨a, ha⟩ := hok x (List.mem_cons_self x rest)
      have hrest := ih (fun y hy => hok y (List.mem_cons_of_mem x hy))
      rw [List.cons_append]
      show (x :: (rest ++ (n, Except.error e) :: post2)).mapM
        (fun f => (f.2).map (fun a => (f.1, a))) = Except.error e
      rw [List.mapM_cons, ha]
      rw [retrain_feature_space] at hrest
      rw [hrest]
      rfl
  refine ⟨hmain, ?_⟩
  rw [retrain_main, List.map_append, List.map_cons, hmain]
  rfl

/-- Witness for C9 (amended): lifestyle retrain fails at Gradient Boosting
after a successful Random Forest fit, clinical retrain runs anyway. -/
theorem retrain_isolation_amended_witness :
    (∀ x ∈ [("ensemble_randomforest.pkl", (Except.ok 1 : Except String ℕ))],
      ∃ a, x.2 = Except.ok a) ∧
    (retrain_feature_space
        ([("ensemble_randomforest.pkl", (Except.ok 1 : Except String ℕ))] ++
          ("ensemble_xgboost.pkl", Except.error "MemoryError") ::
            [("single_logisticregression.pkl", Except.ok 2),
             ("ensemble_stacking.pkl", Except.ok 3)]) = Except.error "MemoryError" ∧
      retrain_main
          ([] ++ ("lifestyle",
              [("ensemble_randomforest.pkl", (Except.ok 1 : Except String ℕ))] ++
                ("ensemble_xgboost.pkl", Except.error "MemoryError") ::
                  [("single_logisticregression.pkl", Except.ok 2),
                   ("ensemble_stacking.pkl", Except.ok 3)]) ::
            [("clinical", [("heart_rf.joblib", Except.ok 4)])]) =
        retrain_main [] ++ ("lifestyle", none) ::
          retrain_main [("clinical", [("heart_rf.joblib", Except.ok 4)])]) := by
  have hok : ∀ x ∈ [("ensemble_randomforest.pkl", (Except.ok 1 : Except String ℕ))],
      ∃ a, x.2 = Except.ok a := by
    intro x hx
    rcases List.mem_singleton.mp hx with h
    rw [h]
    exact ⟨1, rfl⟩
  exact ⟨hok, retrain_isolation_amended [] [("clinical", [("heart_rf.joblib", Except.ok 4)])]
    "lifestyle" _ [("single_logisticregression.pkl", Except.ok 2),
      ("ensemble_stacking.pkl", Except.ok 3)] "ensemble_xgboost.pkl" "MemoryError" hok⟩

/-! ### Heart keys alias cardio artifacts (Claim C10) -/

/-- Claim C10: after `load_models`, the clinical feature-space has no artifacts
of its own for the scaler and the three ensemble keys: `get_scaler('heart')`
observes the very same artifact as `get_scaler('cardio')`, and `heart_rf`,
`heart_gb`, `heart_stacking` observe the same artifacts as `cardio_rf`,
`cardio_gb`, `cardio_stacking` — whatever files the environment lets
`joblib.load` unpickle (model_loader.py lines 62-64 and 91-108). -/
theorem heart_aliases_cardio (load : String → Option LoadedArtifact) :
    scalersAfterLoad load "heart" = scalersAfterLoad load "cardio" ∧
    modelsAfterLoad load "heart_rf" = modelsAfterLoad load "cardio_rf" ∧
    modelsAfterLoad load "heart_gb" = modelsAfterLoad load "cardio_gb" ∧
    modelsAfterLoad load "heart_stacking" = modelsAfterLoad load "cardio_stacking" :=
  ⟨rfl, rfl, rfl, rfl⟩

end HeartDisease
